import Mathlib

/-! traefik-open-policy-agent: the authorization gate of `main.go`

A shallow embedding of `main.go` and of the standard-library calls it makes.

Conventions of the embedding.

* A Go `string` is a Lean `String`.  Go strings are byte strings; the embedding
  covers those that are valid UTF-8.  Every byte test made by the modelled
  library code is on an ASCII byte, so working on characters agrees with
  working on bytes there.
* A Go `[]byte` is a `List UInt8`; a slice that may be `nil` is an `Option`.
* A Go `map[string]V` that is only looked up is a function `String → Option V`.
  A map that is iterated with `range` is the list of its entries, and every
  `range` loop takes the order in which it visits them as an argument: the
  language leaves that order unspecified and allows it to change between two
  loops over the same map.
* `http.ResponseWriter` is an interface: it is embedded as the recorder
  `ResponseWriter`, whose methods follow the response writer of the `net/http`
  server: `WriteHeader` panics on a code outside 100..999 and sends a 1xx code
  other than 101 as an informational header, `Write` writes the header with
  status 200 when none was written and drops the body of a status that does
  not allow one.
* The outbound call (`sling`), `helpers.ConvertToType` and `url.URL.Query` are
  arguments of the functions that call them.
-/

/-! ## Standard library: `strings` -/

namespace strings

/-- Pieces of `s` between occurrences of the byte `sep`, with `cur` the
(reversed) piece being read: the loop of `genSplit` for a one-byte separator. -/
def splitAux (sep : Char) : List Char → List Char → List (List Char)
  | [], cur => [cur.reverse]
  | c :: cs, cur =>
    if c = sep then cur.reverse :: splitAux sep cs [] else splitAux sep cs (c :: cur)

/-- Go `strings.Split(s, sep)` for a separator `sep` of one byte: all the
substrings of `s` separated by `sep`; a string without `sep` (the empty string
too) gives the one-element slice `[s]`. -/
def Split (s : String) (sep : Char) : List String :=
  (splitAux sep s.data []).map String.mk

/-- Go `strings.Count(s, sep)` for a separator of one byte. -/
def Count (s : String) (sep : Char) : Nat :=
  s.data.count sep

/-- Go `strings.Join(elems, sep)`. -/
def Join : List String → String → String
  | [], _ => ""
  | [a], _ => a
  | a :: b :: rest, sep => a ++ sep ++ Join (b :: rest) sep

/-- Go `strings.HasPrefix(s, prefix)` for a prefix of one byte. -/
def HasPrefix (s : String) (c : Char) : Bool :=
  s.data.head? == some c

end strings

/-! ## Run-time panics and dynamic values -/

/-- The run-time panics the handler can raise. -/
inductive Panic
  /-- A slice expression `a[1:]` on a slice of length 0. -/
  | sliceBoundsOutOfRange
  /-- A type assertion `x.(bool)` on a value whose dynamic type is not `bool`. -/
  | interfaceConversion
  /-- A call `WriteHeader(code)` with a code below 100 or above 999. -/
  | invalidWriteHeaderCode
  deriving DecidableEq, Repr

/-- Go slice expression `a[1:]`: panics when `a` is empty. -/
def sliceFrom1 {α : Type} : List α → Except Panic (List α)
  | [] => .error .sliceBoundsOutOfRange
  | _ :: rest => .ok rest

/-- A Go `interface{}` value as `encoding/json` decodes it: `nil`, `bool`,
`float64` (kept as the literal of the number), `string`, `[]interface{}` and
`map[string]interface{}`. -/
inductive Any
  | null
  | bool (b : Bool)
  | number (literal : String)
  | string (s : String)
  | array (elems : List Any)
  | object (fields : List (String × Any))

/-- Go type assertion `v.(bool)`. -/
def Any.assertBool : Any → Except Panic Bool
  | .bool b => .ok b
  | _ => .error .interfaceConversion

/-! ## Standard library: `net/textproto`, `net/http`, `io/ioutil` -/

namespace textproto

/-- Go `validHeaderFieldByte`: the token characters of RFC 7230, that is the
ASCII letters and digits and the fifteen punctuation bytes listed by code. -/
def validHeaderFieldByte (c : Char) : Bool :=
  let n := c.toNat
  (48 ≤ n && n ≤ 57) || (65 ≤ n && n ≤ 90) || (97 ≤ n && n ≤ 122) ||
    [33, 35, 36, 37, 38, 39, 42, 43, 45, 46, 94, 95, 96, 124, 126].contains n

/-- The rewriting loop of Go `canonicalMIMEHeaderKey`: upper case for the first
letter and for a letter after `-`, lower case for every other letter. -/
def canonLoop : Bool → List Char → List Char
  | _, [] => []
  | upper, c :: cs =>
    let c1 :=
      if upper && (97 ≤ c.toNat && c.toNat ≤ 122) then Char.ofNat (c.toNat - 32)
      else if !upper && (65 ≤ c.toNat && c.toNat ≤ 90) then Char.ofNat (c.toNat + 32)
      else c
    c1 :: canonLoop (c1 == '-') cs

/-- Go `textproto.CanonicalMIMEHeaderKey`: a key with a byte that is not a
token character (a space too) is returned unchanged. -/
def CanonicalMIMEHeaderKey (s : String) : String :=
  if s.data.all validHeaderFieldByte then String.mk (canonLoop true s.data) else s

end textproto

namespace http

/-- Go `http.Header` and `url.Values`, both `map[string][]string`. -/
abbrev Header := String → Option (List String)

/-- Go `Header.Set`: `h[CanonicalMIMEHeaderKey(key)] = []string{value}`. -/
def Header.Set (h : Header) (key value : String) : Header :=
  Function.update h (textproto.CanonicalMIMEHeaderKey key) (some [value])

/-- Go `http.StatusUnauthorized`. -/
def StatusUnauthorized : Int := 401

/-- Go `http.StatusOK`. -/
def StatusOK : Int := 200

/-- Go `http.StatusSwitchingProtocols`. -/
def StatusSwitchingProtocols : Int := 101

/-- Go `http.StatusNoContent`. -/
def StatusNoContent : Int := 204

/-- Go `http.StatusNotModified`. -/
def StatusNotModified : Int := 304

/-- Go `checkWriteHeaderCode`: panics on a code below 100 or above 999. -/
def checkWriteHeaderCode (code : Int) : Except Panic Unit :=
  if code < 100 ∨ code > 999 then .error .invalidWriteHeaderCode else .ok ()

/-- Go `bodyAllowedForStatus`: no body for 1xx, 204 and 304. -/
def bodyAllowedForStatus (status : Int) : Bool :=
  if 100 ≤ status ∧ status ≤ 199 then false
  else if status = StatusNoContent then false
  else if status = StatusNotModified then false
  else true

/-- What has been written through an `http.ResponseWriter`: the header map its
`Header()` returns, the codes of the informational (1xx) headers sent, the
status code of the response header (`none` while no response header has been
written) and the body bytes accepted by `Write` (as the string they were
converted from). -/
structure ResponseWriter where
  header : Header
  informational : List Int
  status : Option Int
  body : String

/-- A writer through which nothing has been written, with header map `hdr`. -/
def newResponseWriter (hdr : Header) : ResponseWriter :=
  { header := hdr, informational := [], status := none, body := "" }

/-- The call `rw.Header().Set(key, value)`. -/
def ResponseWriter.SetHeader (rw : ResponseWriter) (key value : String) : ResponseWriter :=
  { rw with header := rw.header.Set key value }

/-- The method `WriteHeader` of the server's response writer: a call after the
response header was written is ignored; otherwise the code is checked, a 1xx
code other than 101 is sent as an informational header and leaves the response
header unwritten, and any other code becomes the status of the response. -/
def ResponseWriter.WriteHeader (rw : ResponseWriter) (code : Int) :
    Except Panic ResponseWriter :=
  match rw.status with
  | some _ => .ok rw
  | none =>
    match checkWriteHeaderCode code with
    | .error p => .error p
    | .ok _ =>
      if 100 ≤ code ∧ code ≤ 199 ∧ code ≠ StatusSwitchingProtocols then
        .ok { rw with informational := rw.informational ++ [code] }
      else .ok { rw with status := some code }

/-- The method `Write` of the server's response writer: it calls
`WriteHeader(http.StatusOK)` when no response header has been written; empty
data writes nothing; data for a status that allows no body is refused with
`ErrBodyNotAllowed`; other data is appended to the body. -/
def ResponseWriter.Write (rw : ResponseWriter) (data : String) :
    Except Panic ResponseWriter :=
  let wrote : Except Panic ResponseWriter :=
    match rw.status with
    | none => rw.WriteHeader StatusOK
    | some _ => .ok rw
  match wrote with
  | .error p => .error p
  | .ok rw1 =>
    if data = "" then .ok rw1
    else if bodyAllowedForStatus (rw1.status.getD 0) = false then .ok rw1
    else .ok { rw1 with body := rw1.body ++ data }

/-- An `io.ReadCloser` over a request body: `data` are the bytes it still
delivers, `err` the error its last read ends with (`none` for `io.EOF`). -/
structure ReadCloser where
  data : List UInt8
  err : Option String

/-- Go `url.URL`, the fields the handler reads. -/
structure URL where
  Path : String
  RawQuery : String

/-- Go `http.Request`, the fields the handler reads; `Body` is `none` for a
nil `Body`. -/
structure Request where
  Method : String
  URL : URL
  Header : Header
  Body : Option ReadCloser
  Host : String

end http

namespace ioutil

/-- Go `ioutil.ReadAll`: the bytes read until `io.EOF` or an error, the error,
and the reader as it is left, with nothing more to deliver. -/
def ReadAll (r : http.ReadCloser) : List UInt8 × Option String × http.ReadCloser :=
  (r.data, r.err, { r with data := [] })

end ioutil

/-! ## `main.go` -/

open http

/-- The struct `ErrorResponse`.  `Headers` lists the entries of the map;
`Body` is `none` for a nil pointer. -/
structure ErrorResponse where
  Headers : List (String × String)
  StatusCode : Int
  ContentType : String
  Body : Option Any

/-- The struct `Config`. -/
structure Config where
  Url : String
  AllowField : String
  ErrorResponse : ErrorResponse

/-- The function `CreateConfig`: every field not set has the zero value of its
type. -/
def CreateConfig : Config :=
  { Url := ""
    AllowField := "allow"
    ErrorResponse :=
      { Headers := []
        StatusCode := StatusUnauthorized
        ContentType := "text/plain"
        Body := none } }

/-- The struct `OpenPolicyAgent`.  The field `next` is not stored: a call of
`h.next.ServeHTTP` is recorded in the `Outcome` of the handler. -/
structure OpenPolicyAgent where
  url : String
  allowField : String
  errorResponse : ErrorResponse
  name : String

/-- The struct `OpenPolicyAgentInput`; `Body` is a `json.RawMessage`, `none`
for the nil slice. -/
structure OpenPolicyAgentInput where
  Host : String
  Path : List String
  Method : String
  Headers : Header
  Query : Header
  Body : Option (List UInt8)

/-- The struct `OpenPolicyAgentPayload`. -/
structure OpenPolicyAgentPayload where
  Input : OpenPolicyAgentInput

/-- The function `New`. -/
def New (config : Config) (name : String) : OpenPolicyAgent :=
  { url := config.Url
    allowField := config.AllowField
    errorResponse := config.ErrorResponse
    name := name }

/-- The struct `OpenPolicyAgentResponse`; a nil `Result` map has no key. -/
structure OpenPolicyAgentResponse where
  Result : String → Option Any

/-- How a run of `ServeHTTP` ends. -/
inductive Outcome
  /-- The handler called `h.next.ServeHTTP(rw, req)` with this writer and this
  request, and returned what it returned. -/
  | next (rw : ResponseWriter) (req : Request)
  /-- The handler returned without calling the next handler, leaving the
  writer in this state. -/
  | returned (rw : ResponseWriter)
  /-- The handler panicked. -/
  | panic (p : Panic)

/-- How a handler ends that returns right after `h.writeErrorResponse(rw)`:
with the writer as that call leaves it, or with the panic of that call. -/
def Outcome.ofWriteErrorResponse : Except Panic ResponseWriter → Outcome
  | .ok rw => .returned rw
  | .error p => .panic p

/-- Whether the run called the next handler. -/
def Outcome.invokesNext : Outcome → Bool
  | .next _ _ => true
  | _ => false

/-- The function `requestToOpenPolicyAgentPayload`, with `Query` the method
`req.URL.Query`.  Reading the body changes the request: the result holds the
payload and the request as it is left. -/
def requestToOpenPolicyAgentPayload (Query : URL → Header) (req : Request) :
    Except Panic (OpenPolicyAgentPayload × Request) :=
  let (body, req1) : Option (List UInt8) × Request :=
    match req.Body with
    | some r =>
      let (bodyBytes, _, r1) := ioutil.ReadAll r
      (some bodyBytes, { req with Body := some r1 })
    | none => (none, req)
  match sliceFrom1 (strings.Split req.URL.Path '/') with
  | .error p => .error p
  | .ok path =>
    .ok ({ Input :=
            { Host := req.Host
              Path := path
              Method := req.Method
              Headers := req.Header
              Query := Query req.URL
              Body := body } }, req1)

/-- The method `writeErrorResponse`, with `ConvertToType` the function
`helpers.ConvertToType` and `range` the order in which this run of the loop
visits the entries of the `Headers` map. -/
def OpenPolicyAgent.writeErrorResponse (o : OpenPolicyAgent)
    (ConvertToType : Any → String → Except String String)
    (range : List (String × String) → List (String × String))
    (rw : ResponseWriter) : Except Panic ResponseWriter :=
  let rw1 := (range o.errorResponse.Headers).foldl (fun w kv => w.SetHeader kv.1 kv.2) rw
  let rw2 := rw1.SetHeader "Content-Type" o.errorResponse.ContentType
  match rw2.WriteHeader o.errorResponse.StatusCode with
  | .error p => .error p
  | .ok rw3 =>
    match o.errorResponse.Body with
    | some b =>
      match ConvertToType b o.errorResponse.ContentType with
      | .error err => rw3.Write err
      | .ok body => rw3.Write body
    | none => .ok rw3

/-- The method `ServeHTTP`, with `Receive` the call
`sling.New().Post(url).BodyJSON(payload).Receive(&response, "_")`: the error it
returns, or the decoded response. -/
def OpenPolicyAgent.ServeHTTP (h : OpenPolicyAgent)
    (Receive : String → OpenPolicyAgentPayload → Except String OpenPolicyAgentResponse)
    (ConvertToType : Any → String → Except String String)
    (Query : URL → Header)
    (range : List (String × String) → List (String × String))
    (rw : ResponseWriter) (req : Request) : Outcome :=
  match requestToOpenPolicyAgentPayload Query req with
  | .error p => .panic p
  | .ok (payload, req1) =>
    match Receive h.url payload with
    | .error _ => .ofWriteErrorResponse (h.writeErrorResponse ConvertToType range rw)
    | .ok response =>
      match response.Result h.allowField with
      | none => .ofWriteErrorResponse (h.writeErrorResponse ConvertToType range rw)
      | some isAllowed =>
        match isAllowed.assertBool with
        | .error p => .panic p
        | .ok true => .next rw req1
        | .ok false => .ofWriteErrorResponse (h.writeErrorResponse ConvertToType range rw)

/-! ## Concrete inputs -/

/-- The handler built from the default configuration. -/
def sampleAgent : OpenPolicyAgent :=
  New { CreateConfig with Url := "http://opa:8181/v1/data/httpapi/authz" } "opa"

/-- A handler whose denial response has a body, a custom header and a
`Content-Type` entry in its header map. -/
def sampleBodyAgent : OpenPolicyAgent :=
  { sampleAgent with
    errorResponse :=
      { Headers := [("x-reason", "policy"), ("Content-Type", "x")]
        StatusCode := 403
        ContentType := "text/plain"
        Body := some (.string "denied") } }

/-- A handler whose header map has two keys with one canonical form. -/
def collidingAgent : OpenPolicyAgent :=
  { sampleAgent with
    errorResponse :=
      { Headers := [("x-a", "1"), ("X-A", "2")]
        StatusCode := 401
        ContentType := "text/plain"
        Body := none } }

/-- A handler with a body configured and the status code 0, which
`WriteHeader` refuses. -/
def zeroStatusAgent : OpenPolicyAgent :=
  { sampleBodyAgent with
    errorResponse := { sampleBodyAgent.errorResponse with StatusCode := 0 } }

/-- A handler with a body configured and the informational status code 103. -/
def earlyHintsAgent : OpenPolicyAgent :=
  { sampleBodyAgent with
    errorResponse := { sampleBodyAgent.errorResponse with StatusCode := 103 } }

/-- A handler with a body configured and the status code 204, which allows no
body. -/
def noContentAgent : OpenPolicyAgent :=
  { sampleBodyAgent with
    errorResponse := { sampleBodyAgent.errorResponse with StatusCode := 204 } }

/-- A request `POST /a/b` with the two-byte body `{}`. -/
def sampleRequest : Request :=
  { Method := "POST"
    URL := { Path := "/a/b", RawQuery := "" }
    Header := fun k => if k = "X-A" then some ["1", "2"] else none
    Body := some { data := [0x7b, 0x7d], err := none }
    Host := "example.org:8080" }

/-- A request `GET /` with a nil `Body`. -/
def nilBodyRequest : Request :=
  { Method := "GET"
    URL := { Path := "/", RawQuery := "" }
    Header := fun _ => none
    Body := none
    Host := "example.org" }

/-- A request with the empty URL path and an empty, non-nil body. -/
def emptyPathRequest : Request :=
  { Method := "GET"
    URL := { Path := "", RawQuery := "" }
    Header := fun _ => none
    Body := some { data := [], err := none }
    Host := "example.org" }

/-- A query parser for the concrete instances: no parameter. -/
def sampleQuery : URL → Header :=
  fun _ _ => none

/-- An encoder for the concrete instances: strings as they are for
`text/plain`, an error for every other content type. -/
def sampleConvertToType : Any → String → Except String String :=
  fun v contentType =>
    if contentType = "text/plain" then
      match v with
      | .string s => .ok s
      | _ => .ok ""
    else .error "unsupported content type"

/-- A decision call that succeeds with a result whose only field is `allow`,
with the value `v`. -/
def receiveAllow (v : Any) : String → OpenPolicyAgentPayload → Except String OpenPolicyAgentResponse :=
  fun _ _ => .ok { Result := fun k => if k = "allow" then some v else none }

/-- A decision call that succeeds with a result without the allow-field. -/
def receiveEmpty : String → OpenPolicyAgentPayload → Except String OpenPolicyAgentResponse :=
  fun _ _ => .ok { Result := fun _ => none }

/-- A decision call that fails. -/
def receiveError : String → OpenPolicyAgentPayload → Except String OpenPolicyAgentResponse :=
  fun _ _ => .error "connection refused"

/-- The bytes the body of the request handed to the next handler still
delivers: `none` when no request was handed on or its `Body` is nil. -/
def Outcome.unreadBody : Outcome → Option (List UInt8)
  | .next _ req => req.Body.map (fun r => r.data)
  | _ => none

/-- A writer for the concrete instances: nothing written, no header. -/
def sampleWriter : ResponseWriter :=
  newResponseWriter (fun _ => none)

/-! ## Lemmas on the library model -/

namespace strings

theorem splitAux_ne_nil (sep : Char) (s cur : List Char) : splitAux sep s cur ≠ [] := by
  induction s generalizing cur with
  | nil => simp [splitAux]
  | cons c cs ih =>
    by_cases hc : c = sep
    · simp [splitAux, hc]
    · simpa [splitAux, hc] using ih (c :: cur)

theorem splitAux_length (sep : Char) (s cur : List Char) :
    (splitAux sep s cur).length = s.count sep + 1 := by
  induction s generalizing cur with
  | nil => simp [splitAux]
  | cons c cs ih =>
    by_cases hc : c = sep
    · simp [splitAux, hc, ih]
    · simp [splitAux, hc, ih, List.count_cons]

theorem splitAux_not_mem (sep : Char) (s cur : List Char) (hcur : sep ∉ cur) :
    ∀ piece ∈ splitAux sep s cur, sep ∉ piece := by
  induction s generalizing cur with
  | nil => simpa [splitAux] using hcur
  | cons c cs ih =>
    by_cases hc : c = sep
    · intro piece hp
      simp only [splitAux, hc, if_true, List.mem_cons] at hp
      rcases hp with rfl | hp
      · simpa using hcur
      · exact ih [] (by simp) piece hp
    · intro piece hp
      simp only [splitAux, hc, if_false] at hp
      refine ih (c :: cur) ?_ piece hp
      simp only [List.mem_cons, not_or]
      exact ⟨fun h => hc h.symm, hcur⟩

theorem Join_cons (a : String) (l : List String) (sep : String) (hl : l ≠ []) :
    Join (a :: l) sep = a ++ sep ++ Join l sep := by
  cases l with
  | nil => exact absurd rfl hl
  | cons b rest => rfl

theorem Join_splitAux (sep : Char) (s cur : List Char) :
    (Join ((splitAux sep s cur).map String.mk) (String.mk [sep])).data = cur.reverse ++ s := by
  induction s generalizing cur with
  | nil => simp [splitAux, Join]
  | cons c cs ih =>
    by_cases hc : c = sep
    · have hne : (splitAux sep cs []).map String.mk ≠ [] := by
        simpa using splitAux_ne_nil sep cs []
      simp only [splitAux, hc, if_true, List.map_cons]
      rw [Join_cons _ _ _ hne]
      simp [String.data_append, ih]
    · simp only [splitAux, hc, if_false]
      rw [ih]
      simp

theorem Split_ne_nil (s : String) (sep : Char) : Split s sep ≠ [] := by
  simpa [Split] using splitAux_ne_nil sep s.data []

theorem Split_length (s : String) (sep : Char) : (Split s sep).length = Count s sep + 1 := by
  simp [Split, Count, splitAux_length]

end strings

/-! ## Lemmas on `main.go` -/

theorem requestToOpenPolicyAgentPayload_ok (Query : URL → Header) (req : Request) :
    requestToOpenPolicyAgentPayload Query req =
      .ok ({ Input :=
              { Host := req.Host
                Path := (strings.Split req.URL.Path '/').tail
                Method := req.Method
                Headers := req.Header
                Query := Query req.URL
                Body := req.Body.map (fun r => r.data) } },
           { req with Body := req.Body.map (fun r => { r with data := [] }) }) := by
  obtain ⟨a, l, hal⟩ : ∃ a l, strings.Split req.URL.Path '/' = a :: l := by
    cases hs : strings.Split req.URL.Path '/' with
    | nil => exact absurd hs (strings.Split_ne_nil _ _)
    | cons a l => exact ⟨a, l, rfl⟩
  obtain ⟨m, u, hd, b, ho⟩ := req
  cases b <;>
    simp [requestToOpenPolicyAgentPayload, ioutil.ReadAll, sliceFrom1, hal] at hal ⊢

theorem foldl_SetHeader_status (l : List (String × String)) (rw : ResponseWriter) :
    (l.foldl (fun w kv => ResponseWriter.SetHeader w kv.1 kv.2) rw).status = rw.status := by
  induction l generalizing rw with
  | nil => rfl
  | cons x xs ih =>
    rw [List.foldl_cons, ih]
    rfl

theorem foldl_SetHeader_body (l : List (String × String)) (rw : ResponseWriter) :
    (l.foldl (fun w kv => ResponseWriter.SetHeader w kv.1 kv.2) rw).body = rw.body := by
  induction l generalizing rw with
  | nil => rfl
  | cons x xs ih =>
    rw [List.foldl_cons, ih]
    rfl

theorem foldl_SetHeader_header_of_not_mem (l : List (String × String)) (rw : ResponseWriter)
    (name : String) (hname : ∀ kv ∈ l, textproto.CanonicalMIMEHeaderKey kv.1 ≠ name) :
    (l.foldl (fun w kv => ResponseWriter.SetHeader w kv.1 kv.2) rw).header name =
      rw.header name := by
  induction l generalizing rw with
  | nil => rfl
  | cons x xs ih =>
    rw [List.foldl_cons, ih _ (fun kv hkv => hname kv (List.mem_cons_of_mem _ hkv))]
    have hx : name ≠ textproto.CanonicalMIMEHeaderKey x.1 :=
      fun hc => hname x (List.mem_cons_self _ _) hc.symm
    simp [ResponseWriter.SetHeader, Header.Set, Function.update_noteq hx]

theorem foldl_SetHeader_header_of_unique (l : List (String × String)) (rw : ResponseWriter)
    (k v : String) (hmem : (k, v) ∈ l)
    (hunique : ∀ kv ∈ l, textproto.CanonicalMIMEHeaderKey kv.1 =
      textproto.CanonicalMIMEHeaderKey k → kv = (k, v)) :
    (l.foldl (fun w kv => ResponseWriter.SetHeader w kv.1 kv.2) rw).header
      (textproto.CanonicalMIMEHeaderKey k) = some [v] := by
  induction l generalizing rw with
  | nil => simp at hmem
  | cons x xs ih =>
    rw [List.foldl_cons]
    by_cases hxs : (k, v) ∈ xs
    · exact ih _ hxs (fun kv hkv => hunique kv (List.mem_cons_of_mem _ hkv))
    · have hx : x = (k, v) := by
        rcases List.mem_cons.mp hmem with hx | hx
        · exact hx.symm
        · exact absurd hx hxs
      rw [foldl_SetHeader_header_of_not_mem]
      · subst hx
        simp [ResponseWriter.SetHeader, Header.Set]
      · intro kv hkv hc
        have := hunique kv (List.mem_cons_of_mem _ hkv) hc
        exact hxs (this ▸ hkv)

theorem foldl_SetHeader_perm (l₁ l₂ : List (String × String)) (rw : ResponseWriter)
    (hperm : l₁.Perm l₂)
    (hdistinct : ∀ x ∈ l₁, ∀ y ∈ l₁, textproto.CanonicalMIMEHeaderKey x.1 =
      textproto.CanonicalMIMEHeaderKey y.1 → x = y) :
    l₁.foldl (fun w kv => ResponseWriter.SetHeader w kv.1 kv.2) rw =
      l₂.foldl (fun w kv => ResponseWriter.SetHeader w kv.1 kv.2) rw := by
  refine List.Perm.foldl_eq' hperm ?_ rw
  intro x hx y hy z
  by_cases hc : textproto.CanonicalMIMEHeaderKey x.1 = textproto.CanonicalMIMEHeaderKey y.1
  · rw [hdistinct x hx y hy hc]
  · simp only [ResponseWriter.SetHeader, Header.Set]
    rw [Function.update_comm hc]

theorem foldl_SetHeader_informational (l : List (String × String)) (rw : ResponseWriter) :
    (l.foldl (fun w kv => ResponseWriter.SetHeader w kv.1 kv.2) rw).informational =
      rw.informational := by
  induction l generalizing rw with
  | nil => rfl
  | cons x xs ih =>
    rw [List.foldl_cons, ih]
    rfl

theorem foldl_SetHeader_header_of_last (pre post : List (String × String))
    (rw : ResponseWriter) (k v : String)
    (hpost : ∀ kv ∈ post, textproto.CanonicalMIMEHeaderKey kv.1 ≠
      textproto.CanonicalMIMEHeaderKey k) :
    ((pre ++ (k, v) :: post).foldl (fun w kv => ResponseWriter.SetHeader w kv.1 kv.2) rw).header
      (textproto.CanonicalMIMEHeaderKey k) = some [v] := by
  rw [List.foldl_append, List.foldl_cons, foldl_SetHeader_header_of_not_mem _ _ _ hpost]
  simp [ResponseWriter.SetHeader, Header.Set]

theorem WriteHeader_final (rw : ResponseWriter) (code : Int) (hs : rw.status = none)
    (hcode : code = 101 ∨ (200 ≤ code ∧ code ≤ 999)) :
    rw.WriteHeader code = .ok { rw with status := some code } := by
  have h1 : ¬ (code < 100 ∨ code > 999) := by omega
  have h2 : ¬ (100 ≤ code ∧ code ≤ 199 ∧ code ≠ StatusSwitchingProtocols) := by
    simp only [StatusSwitchingProtocols]
    omega
  simp only [ResponseWriter.WriteHeader, hs, checkWriteHeaderCode, h1, h2, if_false]

theorem WriteHeader_invalid (rw : ResponseWriter) (code : Int) (hs : rw.status = none)
    (hcode : code < 100 ∨ code > 999) :
    rw.WriteHeader code = .error .invalidWriteHeaderCode := by
  simp only [ResponseWriter.WriteHeader, hs, checkWriteHeaderCode, hcode, if_true]

theorem WriteHeader_informational (rw : ResponseWriter) (code : Int) (hs : rw.status = none)
    (hcode : 100 ≤ code ∧ code ≤ 199 ∧ code ≠ 101) :
    rw.WriteHeader code = .ok { rw with informational := rw.informational ++ [code] } := by
  have h1 : ¬ (code < 100 ∨ code > 999) := by omega
  have h2 : 100 ≤ code ∧ code ≤ 199 ∧ code ≠ StatusSwitchingProtocols := hcode
  simp only [ResponseWriter.WriteHeader, hs, checkWriteHeaderCode, h1, if_false]
  rw [if_pos h2]

theorem Write_of_status (rw : ResponseWriter) (data : String) (c : Int)
    (hs : rw.status = some c) :
    rw.Write data =
      .ok (if data = "" ∨ bodyAllowedForStatus c = false then rw
        else { rw with body := rw.body ++ data }) := by
  simp only [ResponseWriter.Write, hs, Option.getD_some]
  by_cases hd : data = ""
  · simp [hd]
  · by_cases hb : bodyAllowedForStatus c = false
    · simp [hd, hb]
    · simp [hd, hb]

theorem bodyAllowedForStatus_of_final (code : Int) (h200 : 200 ≤ code)
    (h204 : code ≠ 204) (h304 : code ≠ 304) : bodyAllowedForStatus code = true := by
  have h1 : ¬ (100 ≤ code ∧ code ≤ 199) := by omega
  simp [bodyAllowedForStatus, h1, StatusNoContent, StatusNotModified, h204, h304]

theorem writeErrorResponse_final_ok (o : OpenPolicyAgent)
    (ConvertToType : Any → String → Except String String)
    (range : List (String × String) → List (String × String)) (rw : ResponseWriter)
    (hs : rw.status = none)
    (hcode : o.errorResponse.StatusCode = 101 ∨
      (200 ≤ o.errorResponse.StatusCode ∧ o.errorResponse.StatusCode ≤ 999)) :
    ∃ w, o.writeErrorResponse ConvertToType range rw = .ok w ∧
      w.status = some o.errorResponse.StatusCode ∧
      w.header = (((range o.errorResponse.Headers).foldl
        (fun w kv => ResponseWriter.SetHeader w kv.1 kv.2) rw).SetHeader
          "Content-Type" o.errorResponse.ContentType).header ∧
      w.body =
        match o.errorResponse.Body with
        | none => rw.body
        | some b =>
          match ConvertToType b o.errorResponse.ContentType with
          | .ok body =>
            if body = "" ∨ bodyAllowedForStatus o.errorResponse.StatusCode = false then rw.body
            else rw.body ++ body
          | .error err =>
            if err = "" ∨ bodyAllowedForStatus o.errorResponse.StatusCode = false then rw.body
            else rw.body ++ err := by
  have hs2 : (((range o.errorResponse.Headers).foldl
      (fun w kv => ResponseWriter.SetHeader w kv.1 kv.2) rw).SetHeader
        "Content-Type" o.errorResponse.ContentType).status = none := by
    show ((range o.errorResponse.Headers).foldl _ rw).status = none
    rw [foldl_SetHeader_status, hs]
  have hb2 : (((range o.errorResponse.Headers).foldl
      (fun w kv => ResponseWriter.SetHeader w kv.1 kv.2) rw).SetHeader
        "Content-Type" o.errorResponse.ContentType).body = rw.body := by
    show ((range o.errorResponse.Headers).foldl _ rw).body = rw.body
    rw [foldl_SetHeader_body]
  have hw := WriteHeader_final _ o.errorResponse.StatusCode hs2 hcode
  unfold OpenPolicyAgent.writeErrorResponse
  simp only [hw]
  cases o.errorResponse.Body with
  | none => exact ⟨_, rfl, rfl, rfl, hb2⟩
  | some b =>
    cases hc : ConvertToType b o.errorResponse.ContentType with
    | error err =>
      simp only [hc]
      rw [Write_of_status _ err o.errorResponse.StatusCode rfl]
      refine ⟨_, rfl, ?_, ?_, ?_⟩ <;> split <;> simp [hb2]
    | ok body =>
      simp only [hc]
      rw [Write_of_status _ body o.errorResponse.StatusCode rfl]
      refine ⟨_, rfl, ?_, ?_, ?_⟩ <;> split <;> simp [hb2]

theorem writeErrorResponse_invalid (o : OpenPolicyAgent)
    (ConvertToType : Any → String → Except String String)
    (range : List (String × String) → List (String × String)) (rw : ResponseWriter)
    (hs : rw.status = none)
    (hcode : o.errorResponse.StatusCode < 100 ∨ o.errorResponse.StatusCode > 999) :
    o.writeErrorResponse ConvertToType range rw = .error .invalidWriteHeaderCode := by
  have hs2 : (((range o.errorResponse.Headers).foldl
      (fun w kv => ResponseWriter.SetHeader w kv.1 kv.2) rw).SetHeader
        "Content-Type" o.errorResponse.ContentType).status = none := by
    show ((range o.errorResponse.Headers).foldl _ rw).status = none
    rw [foldl_SetHeader_status, hs]
  have hw := WriteHeader_invalid _ o.errorResponse.StatusCode hs2 hcode
  unfold OpenPolicyAgent.writeErrorResponse
  simp only [hw]

theorem ofWriteErrorResponse_eq_returned (r : Except Panic ResponseWriter)
    (w : ResponseWriter) (hr : Outcome.ofWriteErrorResponse r = .returned w) : r = .ok w := by
  cases r with
  | error p => cases hr
  | ok w1 =>
    simp only [Outcome.ofWriteErrorResponse, Outcome.returned.injEq] at hr
    rw [hr]

theorem ServeHTTP_returned (h : OpenPolicyAgent)
    (Receive : String → OpenPolicyAgentPayload → Except String OpenPolicyAgentResponse)
    (ConvertToType : Any → String → Except String String) (Query : URL → Header)
    (range : List (String × String) → List (String × String))
    (rw : ResponseWriter) (req : Request) (w : ResponseWriter)
    (hrun : h.ServeHTTP Receive ConvertToType Query range rw req = .returned w) :
    h.writeErrorResponse ConvertToType range rw = .ok w := by
  simp only [OpenPolicyAgent.ServeHTTP, requestToOpenPolicyAgentPayload_ok] at hrun
  split at hrun
  · exact ofWriteErrorResponse_eq_returned _ _ hrun
  · split at hrun
    · exact ofWriteErrorResponse_eq_returned _ _ hrun
    · split at hrun
      · cases hrun
      · cases hrun
      · exact ofWriteErrorResponse_eq_returned _ _ hrun

/-! ## The request canonicalizer -/

/-- C5: for every URL path that begins with `/`, the path segments computed by
`requestToOpenPolicyAgentPayload` are the split of the path on `/` without its
leading empty segment: no segment contains `/`, and `/` followed by the
segments joined by `/` is the path again; `/a/b` gives `["a", "b"]` and `/`
gives `[""]`. -/
theorem path_segments_of_rooted_path (Query : URL → Header) (req : Request)
    (hroot : strings.HasPrefix req.URL.Path '/' = true) :
    ∃ payload req1, requestToOpenPolicyAgentPayload Query req = .ok (payload, req1) ∧
      strings.Split req.URL.Path '/' = "" :: payload.Input.Path ∧
      (∀ seg ∈ payload.Input.Path, '/' ∉ seg.data) ∧
      "/" ++ strings.Join payload.Input.Path "/" = req.URL.Path ∧
      (req.URL.Path = "/a/b" → payload.Input.Path = ["a", "b"]) ∧
      (req.URL.Path = "/" → payload.Input.Path = [""]) := by
  refine ⟨_, _, requestToOpenPolicyAgentPayload_ok Query req, ?_⟩
  obtain ⟨rest, hrest⟩ : ∃ rest, req.URL.Path.data = '/' :: rest := by
    cases hd : req.URL.Path.data with
    | nil => simp [strings.HasPrefix, hd] at hroot
    | cons c cs =>
      simp only [strings.HasPrefix, hd, List.head?_cons, beq_iff_eq, Option.some.injEq] at hroot
      exact ⟨cs, by rw [hroot]⟩
  have hsplit : strings.Split req.URL.Path '/' =
      "" :: (strings.splitAux '/' rest []).map String.mk := by
    simp [strings.Split, hrest, strings.splitAux]
  refine ⟨?_, ?_, ?_, ?_, ?_⟩
  · simp [hsplit]
  · intro seg hseg
    simp only [hsplit, List.tail_cons, List.mem_map] at hseg
    obtain ⟨piece, hpiece, rfl⟩ := hseg
    exact strings.splitAux_not_mem '/' rest [] (by simp) piece hpiece
  · apply String.ext
    simp only [hsplit, List.tail_cons, String.data_append]
    have hj := strings.Join_splitAux '/' rest []
    have hsep : ("/" : String) = String.mk ['/'] := rfl
    rw [hsep, hj, hrest]
    rfl
  · intro hp
    simp only [hp]
    decide
  · intro hp
    simp only [hp]
    decide

/-- Witness of C5 on the request `POST /a/b`. -/
theorem path_segments_of_rooted_path_witness :
    strings.HasPrefix sampleRequest.URL.Path '/' = true ∧
    ∃ payload req1, requestToOpenPolicyAgentPayload sampleQuery sampleRequest = .ok (payload, req1) ∧
      strings.Split sampleRequest.URL.Path '/' = "" :: payload.Input.Path ∧
      (∀ seg ∈ payload.Input.Path, '/' ∉ seg.data) ∧
      "/" ++ strings.Join payload.Input.Path "/" = sampleRequest.URL.Path ∧
      (sampleRequest.URL.Path = "/a/b" → payload.Input.Path = ["a", "b"]) ∧
      (sampleRequest.URL.Path = "/" → payload.Input.Path = [""]) :=
  ⟨by decide, path_segments_of_rooted_path sampleQuery sampleRequest (by decide)⟩

/-- C10: for every URL path, computing the path segments does not panic: the
split on `/` is never empty, so `[1:]` is in bounds; the number of segments is
the number of `/` in the path, and the empty path gives the empty sequence. -/
theorem path_segments_total (Query : URL → Header) (req : Request) :
    strings.Split req.URL.Path '/' ≠ [] ∧
    ∃ payload req1, requestToOpenPolicyAgentPayload Query req = .ok (payload, req1) ∧
      payload.Input.Path.length = strings.Count req.URL.Path '/' ∧
      (req.URL.Path = "" → payload.Input.Path = []) := by
  refine ⟨strings.Split_ne_nil _ _, _, _, requestToOpenPolicyAgentPayload_ok Query req, ?_, ?_⟩
  · simp [strings.Split_length]
  · intro hp
    simp only [hp]
    decide

/-- Witness of C10 on a request with the empty path. -/
theorem path_segments_total_witness :
    emptyPathRequest.URL.Path = "" ∧
    ∃ payload req1,
      requestToOpenPolicyAgentPayload sampleQuery emptyPathRequest = .ok (payload, req1) ∧
      payload.Input.Path = [] := by
  obtain ⟨_, payload, req1, hok, _, hempty⟩ := path_segments_total sampleQuery emptyPathRequest
  exact ⟨rfl, payload, req1, hok, hempty rfl⟩

/-- C9 as stated fails on a request whose `Body` is nil: the body field of
the query is then the nil `json.RawMessage`, not an empty non-nil one. -/
theorem nil_body_field_counterexample :
    nilBodyRequest.Body.isNone = true ∧
    ∃ payload req1,
      requestToOpenPolicyAgentPayload sampleQuery nilBodyRequest = .ok (payload, req1) ∧
      payload.Input.Body = none ∧ payload.Input.Body ≠ some [] :=
  ⟨rfl, _, _, requestToOpenPolicyAgentPayload_ok sampleQuery nilBodyRequest, rfl, by decide⟩

/-- C9, amended: the body field of the query is the nil `json.RawMessage` when
the request has a nil `Body`, and otherwise exactly the bytes the body reader
delivers (empty and non-nil when it delivers none), unparsed; host and method
are those of the request, and the headers mapping is the header mapping of the
request itself. -/
theorem payload_fields (Query : URL → Header) (req : Request) :
    ∃ payload req1, requestToOpenPolicyAgentPayload Query req = .ok (payload, req1) ∧
      (req.Body = none → payload.Input.Body = none) ∧
      (∀ r, req.Body = some r → payload.Input.Body = some r.data) ∧
      payload.Input.Host = req.Host ∧
      payload.Input.Method = req.Method ∧
      payload.Input.Headers = req.Header := by
  refine ⟨_, _, requestToOpenPolicyAgentPayload_ok Query req, ?_, ?_, rfl, rfl, rfl⟩
  · intro hb
    simp [hb]
  · intro r hb
    simp [hb]

/-- Witness of C9, amended, on a request with the body `{}` and on one with an
empty, non-nil body. -/
theorem payload_fields_witness :
    (∃ payload req1,
      requestToOpenPolicyAgentPayload sampleQuery sampleRequest = .ok (payload, req1) ∧
      payload.Input.Body = some [0x7b, 0x7d]) ∧
    (∃ payload req1,
      requestToOpenPolicyAgentPayload sampleQuery emptyPathRequest = .ok (payload, req1) ∧
      payload.Input.Body = some []) := by
  constructor
  · obtain ⟨payload, req1, hok, _, hsome, _⟩ := payload_fields sampleQuery sampleRequest
    exact ⟨payload, req1, hok, hsome _ rfl⟩
  · obtain ⟨payload, req1, hok, _, hsome, _⟩ := payload_fields sampleQuery emptyPathRequest
    exact ⟨payload, req1, hok, hsome _ rfl⟩

/-! ## The decision of the gate -/

/-- C1: when the decision call succeeds with a result mapping, `ServeHTTP`
calls the next handler if and only if the mapping holds the allow-field with
the boolean `true`; when the field is absent, or present with the boolean
`false`, it runs `writeErrorResponse` on the writer, ends as that call ends
(with the writer it leaves, whenever it returns one) and does not call the
next handler. -/
theorem next_iff_allow_true (h : OpenPolicyAgent)
    (Receive : String → OpenPolicyAgentPayload → Except String OpenPolicyAgentResponse)
    (ConvertToType : Any → String → Except String String) (Query : URL → Header)
    (range : List (String × String) → List (String × String))
    (rw : ResponseWriter) (req : Request)
    (payload : OpenPolicyAgentPayload) (req1 : Request) (response : OpenPolicyAgentResponse)
    (hpayload : requestToOpenPolicyAgentPayload Query req = .ok (payload, req1))
    (hcall : Receive h.url payload = .ok response) :
    ((h.ServeHTTP Receive ConvertToType Query range rw req).invokesNext = true ↔
      response.Result h.allowField = some (.bool true)) ∧
    (response.Result h.allowField = none ∨ response.Result h.allowField = some (.bool false) →
      h.ServeHTTP Receive ConvertToType Query range rw req =
        .ofWriteErrorResponse (h.writeErrorResponse ConvertToType range rw) ∧
      ∀ w, h.writeErrorResponse ConvertToType range rw = .ok w →
        h.ServeHTTP Receive ConvertToType Query range rw req = .returned w) := by
  simp only [OpenPolicyAgent.ServeHTTP, hpayload, hcall]
  cases hres : response.Result h.allowField with
  | none =>
    refine ⟨?_, fun _ => ⟨rfl, fun w hw => by rw [hw]; rfl⟩⟩
    cases h.writeErrorResponse ConvertToType range rw <;>
      simp [Outcome.invokesNext, Outcome.ofWriteErrorResponse]
  | some v =>
    cases v with
    | bool b =>
      cases b
      · refine ⟨?_, fun _ => ⟨rfl, fun w hw => by simp only [Any.assertBool]; rw [hw]; rfl⟩⟩
        cases h.writeErrorResponse ConvertToType range rw <;>
          simp [Any.assertBool, Outcome.invokesNext, Outcome.ofWriteErrorResponse]
      · simp [Any.assertBool, Outcome.invokesNext]
    | _ => simp [Any.assertBool, Outcome.invokesNext]

/-- Witness of C1 on the request `POST /a/b`: the decision `allow = true` is
forwarded; the decision `allow = false` and the decision without the field
return with the status 401 written. -/
theorem next_iff_allow_true_witness :
    (sampleAgent.ServeHTTP (receiveAllow (.bool true)) sampleConvertToType sampleQuery id
        sampleWriter sampleRequest).invokesNext = true ∧
    (∃ w, sampleAgent.ServeHTTP (receiveAllow (.bool false)) sampleConvertToType sampleQuery id
        sampleWriter sampleRequest = .returned w ∧ w.status = some 401) ∧
    (∃ w, sampleAgent.ServeHTTP receiveEmpty sampleConvertToType sampleQuery id
        sampleWriter sampleRequest = .returned w ∧ w.status = some 401) := by
  obtain ⟨w, hw, hstatus, -⟩ :=
    writeErrorResponse_final_ok sampleAgent sampleConvertToType id sampleWriter rfl
      (Or.inr (by decide))
  refine ⟨?_, ⟨w, ?_, hstatus⟩, ⟨w, ?_, hstatus⟩⟩
  · exact ((next_iff_allow_true sampleAgent (receiveAllow (.bool true)) sampleConvertToType
      sampleQuery id sampleWriter sampleRequest _ _ _
      (requestToOpenPolicyAgentPayload_ok sampleQuery sampleRequest) rfl).1).2 rfl
  · exact ((next_iff_allow_true sampleAgent (receiveAllow (.bool false)) sampleConvertToType
      sampleQuery id sampleWriter sampleRequest _ _ _
      (requestToOpenPolicyAgentPayload_ok sampleQuery sampleRequest) rfl).2 (Or.inr rfl)).2 w hw
  · exact ((next_iff_allow_true sampleAgent receiveEmpty sampleConvertToType
      sampleQuery id sampleWriter sampleRequest _ _ _
      (requestToOpenPolicyAgentPayload_ok sampleQuery sampleRequest) rfl).2 (Or.inl rfl)).2 w hw

/-- C2: when the decision call returns an error, `ServeHTTP` runs
`writeErrorResponse` on the writer, ends as that call ends (with the writer it
leaves, whenever it returns one) and does not call the next handler. -/
theorem deny_on_call_error (h : OpenPolicyAgent)
    (Receive : String → OpenPolicyAgentPayload → Except String OpenPolicyAgentResponse)
    (ConvertToType : Any → String → Except String String) (Query : URL → Header)
    (range : List (String × String) → List (String × String))
    (rw : ResponseWriter) (req : Request)
    (payload : OpenPolicyAgentPayload) (req1 : Request) (err : String)
    (hpayload : requestToOpenPolicyAgentPayload Query req = .ok (payload, req1))
    (hcall : Receive h.url payload = .error err) :
    h.ServeHTTP Receive ConvertToType Query range rw req =
      .ofWriteErrorResponse (h.writeErrorResponse ConvertToType range rw) ∧
    (∀ w, h.writeErrorResponse ConvertToType range rw = .ok w →
      h.ServeHTTP Receive ConvertToType Query range rw req = .returned w) ∧
    (h.ServeHTTP Receive ConvertToType Query range rw req).invokesNext = false := by
  have hrun : h.ServeHTTP Receive ConvertToType Query range rw req =
      .ofWriteErrorResponse (h.writeErrorResponse ConvertToType range rw) := by
    simp only [OpenPolicyAgent.ServeHTTP, hpayload, hcall]
  rw [hrun]
  refine ⟨rfl, fun w hw => by rw [hw]; rfl, ?_⟩
  cases h.writeErrorResponse ConvertToType range rw <;>
    simp [Outcome.invokesNext, Outcome.ofWriteErrorResponse]

/-- Witness of C2: a refused connection on the request `POST /a/b` returns
with the status 401 written and without a call of the next handler. -/
theorem deny_on_call_error_witness :
    (∃ w, sampleAgent.ServeHTTP receiveError sampleConvertToType sampleQuery id sampleWriter
        sampleRequest = .returned w ∧ w.status = some 401) ∧
    (sampleAgent.ServeHTTP receiveError sampleConvertToType sampleQuery id sampleWriter
        sampleRequest).invokesNext = false := by
  obtain ⟨w, hw, hstatus, -⟩ :=
    writeErrorResponse_final_ok sampleAgent sampleConvertToType id sampleWriter rfl
      (Or.inr (by decide))
  obtain ⟨-, hret, hnext⟩ :=
    deny_on_call_error sampleAgent receiveError sampleConvertToType sampleQuery id sampleWriter
      sampleRequest _ _ "connection refused"
      (requestToOpenPolicyAgentPayload_ok sampleQuery sampleRequest) rfl
  exact ⟨⟨w, hret w hw, hstatus⟩, hnext⟩

/-- C3, what the code does: when the allow-field is present with a value that
is not a boolean, the type assertion `isAllowed.(bool)` panics; no denial
response is written and the next handler is not called. -/
theorem panic_on_non_boolean_allow (h : OpenPolicyAgent)
    (Receive : String → OpenPolicyAgentPayload → Except String OpenPolicyAgentResponse)
    (ConvertToType : Any → String → Except String String) (Query : URL → Header)
    (range : List (String × String) → List (String × String))
    (rw : ResponseWriter) (req : Request)
    (payload : OpenPolicyAgentPayload) (req1 : Request) (response : OpenPolicyAgentResponse)
    (v : Any)
    (hpayload : requestToOpenPolicyAgentPayload Query req = .ok (payload, req1))
    (hcall : Receive h.url payload = .ok response)
    (hfield : response.Result h.allowField = some v)
    (hnotbool : ∀ b, v ≠ .bool b) :
    h.ServeHTTP Receive ConvertToType Query range rw req = .panic .interfaceConversion := by
  simp only [OpenPolicyAgent.ServeHTTP, hpayload, hcall, hfield]
  cases v with
  | bool b => exact absurd rfl (hnotbool b)
  | _ => simp [Any.assertBool]

/-- Witness of C3: the decision `allow = "yes"` on the request `POST /a/b`. -/
theorem panic_on_non_boolean_allow_witness :
    sampleAgent.ServeHTTP (receiveAllow (.string "yes")) sampleConvertToType sampleQuery id
        sampleWriter sampleRequest = .panic .interfaceConversion :=
  panic_on_non_boolean_allow sampleAgent (receiveAllow (.string "yes")) sampleConvertToType
    sampleQuery id sampleWriter sampleRequest _ _ _ (.string "yes")
    (requestToOpenPolicyAgentPayload_ok sampleQuery sampleRequest) rfl rfl
    (fun _ hb => Any.noConfusion hb)

/-- C4 as stated fails on a request with a body: the request handed to the
next handler has its body read to the end, with nothing left of the two bytes
the gate received. -/
theorem forwarded_body_counterexample :
    sampleRequest.Body.map (fun r => r.data) = some [0x7b, 0x7d] ∧
    (sampleAgent.ServeHTTP (receiveAllow (.bool true)) sampleConvertToType sampleQuery id
        sampleWriter sampleRequest).unreadBody = some [] ∧
    sampleAgent.ServeHTTP (receiveAllow (.bool true)) sampleConvertToType sampleQuery id
        sampleWriter sampleRequest ≠ .next sampleWriter sampleRequest := by
  refine ⟨rfl, rfl, fun heq => ?_⟩
  have hbody := congrArg Outcome.unreadBody heq
  exact absurd hbody (by decide)

/-- C4, amended: when the allow-field is `true`, the next handler is called
with the writer as the gate received it (the gate writes no status, header or
body) and with the request of the gate: same method, URL (path and query),
headers and host; a nil `Body` is still nil, and a non-nil `Body` has been
read to its end by the gate, so that it delivers no byte to the next handler. -/
theorem forward_on_allow (h : OpenPolicyAgent)
    (Receive : String → OpenPolicyAgentPayload → Except String OpenPolicyAgentResponse)
    (ConvertToType : Any → String → Except String String) (Query : URL → Header)
    (range : List (String × String) → List (String × String))
    (rw : ResponseWriter) (req : Request)
    (payload : OpenPolicyAgentPayload) (req1 : Request) (response : OpenPolicyAgentResponse)
    (hpayload : requestToOpenPolicyAgentPayload Query req = .ok (payload, req1))
    (hcall : Receive h.url payload = .ok response)
    (hallow : response.Result h.allowField = some (.bool true)) :
    h.ServeHTTP Receive ConvertToType Query range rw req = .next rw req1 ∧
    req1.Method = req.Method ∧ req1.URL = req.URL ∧ req1.Header = req.Header ∧
    req1.Host = req.Host ∧
    (req.Body = none → req1.Body = none) ∧
    (∀ r, req.Body = some r → req1.Body = some { data := [], err := r.err }) := by
  refine ⟨by simp [OpenPolicyAgent.ServeHTTP, hpayload, hcall, hallow, Any.assertBool], ?_⟩
  rw [requestToOpenPolicyAgentPayload_ok] at hpayload
  simp only [Except.ok.injEq, Prod.mk.injEq] at hpayload
  obtain ⟨-, rfl⟩ := hpayload
  refine ⟨rfl, rfl, rfl, rfl, ?_, ?_⟩
  · intro hb
    simp [hb]
  · intro r hb
    simp [hb]

/-- Witness of C4, amended: a decision `allow = true` on the request
`POST /a/b`. -/
theorem forward_on_allow_witness :
    ∃ req1,
      sampleAgent.ServeHTTP (receiveAllow (.bool true)) sampleConvertToType sampleQuery id
        sampleWriter sampleRequest = .next sampleWriter req1 ∧
      req1.Body = some { data := [], err := none } := by
  obtain ⟨hnext, -, -, -, -, -, hbody⟩ :=
    forward_on_allow sampleAgent (receiveAllow (.bool true)) sampleConvertToType sampleQuery id
      sampleWriter sampleRequest _ _ _
      (requestToOpenPolicyAgentPayload_ok sampleQuery sampleRequest) rfl rfl
  exact ⟨_, hnext, hbody _ rfl⟩

/-! ## The denial response -/

/-- C6 as stated fails on three configurations.  With the header keys `x-a`
and `X-A`, which `Header.Set` stores under the one name `X-A`, one of the two
configured headers does not carry its configured value, whichever of the two
orders the map is visited in.  With the status code 0, `WriteHeader` panics
and no status is written.  With the status code 103, an informational header
is sent and the status of the response is 200. -/
theorem denial_status_and_headers_counterexample :
    ("x-a", "1") ∈ collidingAgent.errorResponse.Headers ∧
    ("X-A", "2") ∈ collidingAgent.errorResponse.Headers ∧
    textproto.CanonicalMIMEHeaderKey "x-a" ≠ "Content-Type" ∧
    textproto.CanonicalMIMEHeaderKey "X-A" ≠ "Content-Type" ∧
    (∃ w, collidingAgent.writeErrorResponse sampleConvertToType id sampleWriter = .ok w ∧
      w.header (textproto.CanonicalMIMEHeaderKey "x-a") ≠ some ["1"]) ∧
    (∃ w, collidingAgent.writeErrorResponse sampleConvertToType List.reverse sampleWriter =
        .ok w ∧
      w.header (textproto.CanonicalMIMEHeaderKey "X-A") ≠ some ["2"]) ∧
    zeroStatusAgent.errorResponse.StatusCode = 0 ∧
    zeroStatusAgent.writeErrorResponse sampleConvertToType id sampleWriter =
      .error .invalidWriteHeaderCode ∧
    earlyHintsAgent.errorResponse.StatusCode = 103 ∧
    (∃ w, earlyHintsAgent.writeErrorResponse sampleConvertToType id sampleWriter = .ok w ∧
      w.informational = [103] ∧ w.status = some 200) := by
  refine ⟨by decide, by decide, by decide, by decide, ⟨_, rfl, by decide⟩, ⟨_, rfl, by decide⟩,
    rfl, rfl, rfl, ⟨_, rfl, rfl, rfl⟩⟩

/-- C6, amended: for every gate configuration whose status code is 101 or lies
in 200..999, the denial response written by `writeErrorResponse` has the
configured status code; its `Content-Type` header is the configured content
type, whatever the header map holds; every configured header whose canonical
name is not `Content-Type` and is the canonical name of no other configured
header carries, under its canonical name, its configured value; of the
configured headers with one canonical name other than `Content-Type`, the one
the map iteration visits last is the one written; and a header that is neither
`Content-Type` nor the canonical name of a configured header is left as it
was. -/
theorem denial_status_and_headers (o : OpenPolicyAgent)
    (ConvertToType : Any → String → Except String String)
    (range : List (String × String) → List (String × String)) (hdr : Header)
    (hrange : (range o.errorResponse.Headers).Perm o.errorResponse.Headers)
    (hcode : o.errorResponse.StatusCode = 101 ∨
      (200 ≤ o.errorResponse.StatusCode ∧ o.errorResponse.StatusCode ≤ 999)) :
    ∃ w, o.writeErrorResponse ConvertToType range (newResponseWriter hdr) = .ok w ∧
      w.status = some o.errorResponse.StatusCode ∧
      w.header "Content-Type" = some [o.errorResponse.ContentType] ∧
      (∀ k v, (k, v) ∈ o.errorResponse.Headers →
        textproto.CanonicalMIMEHeaderKey k ≠ "Content-Type" →
        (∀ kv ∈ o.errorResponse.Headers,
          textproto.CanonicalMIMEHeaderKey kv.1 = textproto.CanonicalMIMEHeaderKey k →
            kv = (k, v)) →
        w.header (textproto.CanonicalMIMEHeaderKey k) = some [v]) ∧
      (∀ pre k v post, range o.errorResponse.Headers = pre ++ (k, v) :: post →
        textproto.CanonicalMIMEHeaderKey k ≠ "Content-Type" →
        (∀ kv ∈ post,
          textproto.CanonicalMIMEHeaderKey kv.1 ≠ textproto.CanonicalMIMEHeaderKey k) →
        w.header (textproto.CanonicalMIMEHeaderKey k) = some [v]) ∧
      (∀ name, name ≠ "Content-Type" →
        (∀ kv ∈ o.errorResponse.Headers, textproto.CanonicalMIMEHeaderKey kv.1 ≠ name) →
        w.header name = hdr name) := by
  have hct : textproto.CanonicalMIMEHeaderKey "Content-Type" = "Content-Type" := by decide
  obtain ⟨w, hw, hstatus, hheader, -⟩ :=
    writeErrorResponse_final_ok o ConvertToType range (newResponseWriter hdr) rfl hcode
  refine ⟨w, hw, hstatus, ?_, ?_, ?_, ?_⟩
  · rw [hheader]
    simp [ResponseWriter.SetHeader, Header.Set, hct]
  · intro k v hmem hk hunique
    rw [hheader]
    have hne : textproto.CanonicalMIMEHeaderKey k ≠
        textproto.CanonicalMIMEHeaderKey "Content-Type" := by rw [hct]; exact hk
    show Function.update _ _ _ _ = _
    rw [Function.update_noteq hne]
    exact foldl_SetHeader_header_of_unique _ _ k v (hrange.mem_iff.mpr hmem)
      (fun kv hkv => hunique kv (hrange.mem_iff.mp hkv))
  · intro pre k v post hvisit hk hpost
    rw [hheader, hvisit]
    have hne : textproto.CanonicalMIMEHeaderKey k ≠
        textproto.CanonicalMIMEHeaderKey "Content-Type" := by rw [hct]; exact hk
    show Function.update _ _ _ _ = _
    rw [Function.update_noteq hne]
    exact foldl_SetHeader_header_of_last pre post _ k v hpost
  · intro name hname hnot
    rw [hheader]
    have hne : name ≠ textproto.CanonicalMIMEHeaderKey "Content-Type" := by rw [hct]; exact hname
    show Function.update _ _ _ _ = _
    rw [Function.update_noteq hne]
    exact foldl_SetHeader_header_of_not_mem _ _ name
      (fun kv hkv => hnot kv (hrange.mem_iff.mp hkv))

/-- Witness of C6, amended: a header map with `x-reason` and a `Content-Type`
entry `x`, content type `text/plain`, status 403, visited in reverse order;
and the header map with the keys `x-a` and `X-A`, visited in the order given,
where the value of `X-A`, visited last, is written. -/
theorem denial_status_and_headers_witness :
    (∃ w, sampleBodyAgent.writeErrorResponse sampleConvertToType List.reverse
        (newResponseWriter (fun _ => none)) = .ok w ∧
      w.status = some 403 ∧
      w.header "Content-Type" = some ["text/plain"] ∧
      w.header "X-Reason" = some ["policy"]) ∧
    (∃ w, collidingAgent.writeErrorResponse sampleConvertToType id
        (newResponseWriter (fun _ => none)) = .ok w ∧
      w.header "X-A" = some ["2"]) := by
  constructor
  · obtain ⟨w, hw, hstatus, hct, hcarry, -, -⟩ :=
      denial_status_and_headers sampleBodyAgent sampleConvertToType List.reverse (fun _ => none)
        (List.reverse_perm _) (Or.inr (by decide))
    exact ⟨w, hw, hstatus, hct, hcarry "x-reason" "policy" (by decide) (by decide) (by decide)⟩
  · obtain ⟨w, hw, -, -, -, hlast, -⟩ :=
      denial_status_and_headers collidingAgent sampleConvertToType id (fun _ => none)
        (List.Perm.refl _) (Or.inr (by decide))
    exact ⟨w, hw, hlast [("x-a", "1")] "X-A" "2" [] rfl (by decide) (by simp)⟩

/-- C7 as stated fails on two configurations whose body the encoder turns into
`denied`.  With the status code 0, `WriteHeader` panics before any body is
written.  With the status code 204, which allows no body, the writer refuses
the bytes and the body stays empty. -/
theorem denial_body_counterexample :
    zeroStatusAgent.errorResponse.Body = some (.string "denied") ∧
    sampleConvertToType (.string "denied") zeroStatusAgent.errorResponse.ContentType =
      .ok "denied" ∧
    zeroStatusAgent.errorResponse.StatusCode = 0 ∧
    zeroStatusAgent.writeErrorResponse sampleConvertToType id
      (newResponseWriter (fun _ => none)) = .error .invalidWriteHeaderCode ∧
    noContentAgent.errorResponse.Body = some (.string "denied") ∧
    sampleConvertToType (.string "denied") noContentAgent.errorResponse.ContentType =
      .ok "denied" ∧
    noContentAgent.errorResponse.StatusCode = 204 ∧
    (∃ w, noContentAgent.writeErrorResponse sampleConvertToType id
        (newResponseWriter (fun _ => none)) = .ok w ∧
      w.status = some 204 ∧ w.body = "") :=
  ⟨rfl, rfl, rfl, rfl, rfl, rfl, rfl, ⟨_, rfl, rfl, rfl⟩⟩

/-- C7, amended: for every gate configuration whose status code lies in
200..999 and is neither 204 nor 304, the body written by `writeErrorResponse`
is empty when no body is configured, the output of the encoder when it
succeeds, and the text of its error when it fails; in the failure case the
status is the configured one, the `Content-Type` header is the configured
content type and the headers are those written when no body is configured. -/
theorem denial_body (o : OpenPolicyAgent)
    (ConvertToType : Any → String → Except String String)
    (range : List (String × String) → List (String × String)) (hdr : Header)
    (hcode : 200 ≤ o.errorResponse.StatusCode ∧ o.errorResponse.StatusCode ≤ 999)
    (hbody : o.errorResponse.StatusCode ≠ 204 ∧ o.errorResponse.StatusCode ≠ 304) :
    ∃ w, o.writeErrorResponse ConvertToType range (newResponseWriter hdr) = .ok w ∧
      (o.errorResponse.Body = none → w.body = "") ∧
      (∀ b body, o.errorResponse.Body = some b →
        ConvertToType b o.errorResponse.ContentType = .ok body → w.body = body) ∧
      (∀ b err, o.errorResponse.Body = some b →
        ConvertToType b o.errorResponse.ContentType = .error err →
        w.body = err ∧
        w.status = some o.errorResponse.StatusCode ∧
        w.header "Content-Type" = some [o.errorResponse.ContentType] ∧
        ∃ w₀, OpenPolicyAgent.writeErrorResponse
            { o with errorResponse := { o.errorResponse with Body := none } }
            ConvertToType range (newResponseWriter hdr) = .ok w₀ ∧
          w.header = w₀.header) := by
  have hct : textproto.CanonicalMIMEHeaderKey "Content-Type" = "Content-Type" := by decide
  have hallowed := bodyAllowedForStatus_of_final _ hcode.1 hbody.1 hbody.2
  obtain ⟨w, hw, hstatus, hheader, hwbody⟩ :=
    writeErrorResponse_final_ok o ConvertToType range (newResponseWriter hdr) rfl (Or.inr hcode)
  obtain ⟨w₀, hw₀, -, hheader₀, -⟩ :=
    writeErrorResponse_final_ok
      { o with errorResponse := { o.errorResponse with Body := none } }
      ConvertToType range (newResponseWriter hdr) rfl (Or.inr hcode)
  refine ⟨w, hw, ?_, ?_, ?_⟩
  · intro hb
    rw [hwbody, hb]
    rfl
  · intro b body hb hc
    rw [hwbody, hb]
    simp only [hc, hallowed]
    by_cases hempty : body = ""
    · simp [hempty, newResponseWriter]
    · simp [hempty, newResponseWriter]
  · intro b err hb hc
    refine ⟨?_, hstatus, ?_, w₀, hw₀, ?_⟩
    · rw [hwbody, hb]
      simp only [hc, hallowed]
      by_cases hempty : err = ""
      · simp [hempty, newResponseWriter]
      · simp [hempty, newResponseWriter]
    · rw [hheader]
      simp [ResponseWriter.SetHeader, Header.Set, hct]
    · rw [hheader, hheader₀]

/-- Witness of C7, amended: no body configured; the body `denied` for
`text/plain`; and the same body for a content type the encoder refuses. -/
theorem denial_body_witness :
    (∃ w, sampleAgent.writeErrorResponse sampleConvertToType id
        (newResponseWriter (fun _ => none)) = .ok w ∧ w.body = "") ∧
    (∃ w, sampleBodyAgent.writeErrorResponse sampleConvertToType id
        (newResponseWriter (fun _ => none)) = .ok w ∧ w.body = "denied") ∧
    (∃ w, OpenPolicyAgent.writeErrorResponse
        { sampleBodyAgent with
          errorResponse := { sampleBodyAgent.errorResponse with ContentType := "image/png" } }
        sampleConvertToType id (newResponseWriter (fun _ => none)) = .ok w ∧
      w.body = "unsupported content type" ∧ w.status = some 403) := by
  refine ⟨?_, ?_, ?_⟩
  · obtain ⟨w, hw, hnone, -, -⟩ :=
      denial_body sampleAgent sampleConvertToType id (fun _ => none) (by decide) (by decide)
    exact ⟨w, hw, hnone rfl⟩
  · obtain ⟨w, hw, -, hok, -⟩ :=
      denial_body sampleBodyAgent sampleConvertToType id (fun _ => none) (by decide) (by decide)
    exact ⟨w, hw, hok (.string "denied") "denied" rfl rfl⟩
  · obtain ⟨w, hw, -, -, herr⟩ :=
      denial_body
        { sampleBodyAgent with
          errorResponse := { sampleBodyAgent.errorResponse with ContentType := "image/png" } }
        sampleConvertToType id (fun _ => none) (by decide) (by decide)
    obtain ⟨hb, hs, -⟩ := herr (.string "denied") "unsupported content type" rfl rfl
    exact ⟨w, hw, hb, hs⟩

/-- C8 as stated fails on a header map with the keys `x-a` and `X-A`: two runs
of one handler that both end in denial, one visiting the map in one order and
one in the other, write different values for the header `X-A`. -/
theorem denial_not_function_of_config_counterexample :
    (id collidingAgent.errorResponse.Headers).Perm collidingAgent.errorResponse.Headers ∧
    (List.reverse collidingAgent.errorResponse.Headers).Perm
      collidingAgent.errorResponse.Headers ∧
    ∃ w₁ w₂,
      collidingAgent.ServeHTTP receiveError sampleConvertToType sampleQuery id sampleWriter
        sampleRequest = .returned w₁ ∧
      collidingAgent.ServeHTTP receiveEmpty sampleConvertToType sampleQuery List.reverse
        sampleWriter nilBodyRequest = .returned w₂ ∧
      w₁.header "X-A" = some ["2"] ∧ w₂.header "X-A" = some ["1"] :=
  ⟨List.Perm.refl _, List.reverse_perm _, _, _, rfl, rfl, by decide, by decide⟩

/-- C8, amended: for a fixed handler whose configured header names have
pairwise different canonical forms, any two runs that end in denial, whatever
their requests, their decision calls and the orders in which they visit the
header map, leave the same status, headers and body on writers that were in
the same state: the denial response is a function of the configuration. -/
theorem denial_function_of_config (h : OpenPolicyAgent)
    (ConvertToType : Any → String → Except String String)
    (Receive₁ Receive₂ : String → OpenPolicyAgentPayload → Except String OpenPolicyAgentResponse)
    (Query₁ Query₂ : URL → Header)
    (range₁ range₂ : List (String × String) → List (String × String))
    (rw : ResponseWriter) (req₁ req₂ : Request) (w₁ w₂ : ResponseWriter)
    (hrange₁ : (range₁ h.errorResponse.Headers).Perm h.errorResponse.Headers)
    (hrange₂ : (range₂ h.errorResponse.Headers).Perm h.errorResponse.Headers)
    (hdistinct : ∀ x ∈ h.errorResponse.Headers, ∀ y ∈ h.errorResponse.Headers,
      textproto.CanonicalMIMEHeaderKey x.1 = textproto.CanonicalMIMEHeaderKey y.1 → x = y)
    (hrun₁ : h.ServeHTTP Receive₁ ConvertToType Query₁ range₁ rw req₁ = .returned w₁)
    (hrun₂ : h.ServeHTTP Receive₂ ConvertToType Query₂ range₂ rw req₂ = .returned w₂) :
    w₁ = w₂ := by
  have hw₁ := ServeHTTP_returned h Receive₁ ConvertToType Query₁ range₁ rw req₁ w₁ hrun₁
  have hw₂ := ServeHTTP_returned h Receive₂ ConvertToType Query₂ range₂ rw req₂ w₂ hrun₂
  have hfold : (range₁ h.errorResponse.Headers).foldl
        (fun w kv => ResponseWriter.SetHeader w kv.1 kv.2) rw =
      (range₂ h.errorResponse.Headers).foldl
        (fun w kv => ResponseWriter.SetHeader w kv.1 kv.2) rw := by
    rw [← foldl_SetHeader_perm _ _ rw hrange₁.symm hdistinct,
      ← foldl_SetHeader_perm _ _ rw hrange₂.symm hdistinct]
  have hsame : h.writeErrorResponse ConvertToType range₁ rw =
      h.writeErrorResponse ConvertToType range₂ rw := by
    unfold OpenPolicyAgent.writeErrorResponse
    rw [hfold]
  rw [hsame, hw₂] at hw₁
  exact (Except.ok.inj hw₁).symm

/-- Witness of C8, amended: a failed decision call on `POST /a/b` and a
decision without the allow-field on `GET /`, the header map visited in
opposite orders. -/
theorem denial_function_of_config_witness :
    ∃ w₁ w₂,
      sampleBodyAgent.ServeHTTP receiveError sampleConvertToType sampleQuery id sampleWriter
        sampleRequest = .returned w₁ ∧
      sampleBodyAgent.ServeHTTP receiveEmpty sampleConvertToType sampleQuery List.reverse
        sampleWriter nilBodyRequest = .returned w₂ ∧
      w₁ = w₂ :=
  ⟨_, _, rfl, rfl,
    denial_function_of_config sampleBodyAgent sampleConvertToType receiveError receiveEmpty
      sampleQuery sampleQuery id List.reverse sampleWriter sampleRequest nilBodyRequest _ _
      (List.Perm.refl _) (List.reverse_perm _) (by decide) rfl rfl⟩
